import Mathlib

set_option maxRecDepth 8192

/-!
Shallow embedding of src/ldd.c, a minimal Linux kernel module exposing one
procfs node.  Bytes are modelled as natural numbers, kernel buffers as
`List Nat`, user-space memory as a function `Nat → Nat` (the byte at each
address of the user buffer).  The success of copy_to_user / copy_from_user
depends on user-space memory validity, outside the program; it is passed in
as a boolean oracle, and a copy is modelled as all-or-nothing (on failure the
handler returns before any state it reports is used).
-/

/-- Maximum size for input from user space (`#define MAX_INPUT_SIZE 128`). -/
def MAX_INPUT_SIZE : Nat := 128

/-- The errno value EFAULT (bad address). -/
def EFAULT : Int := 14

/-- The errno value ENOMEM (out of memory). -/
def ENOMEM : Int := 12

/-- C `strlen`: index of the first NUL byte.  On a list with no NUL it
returns the length (the C original would read past the end; the reachable
buffers proved below always contain a NUL). -/
def strlen : List Nat → Nat
  | [] => 0
  | b :: bs => if b = 0 then 0 else strlen bs + 1

/-- Initial contents of `message_buffer`: the 34 bytes of
"Hello from ldd demo driver entry!\n" followed by the zero fill of the
remaining 95 cells of the `MAX_INPUT_SIZE + 1`-byte static array. -/
def initial_message_buffer : List Nat :=
  [72, 101, 108, 108, 111, 32, 102, 114, 111, 109, 32, 108, 100, 100, 32,
   100, 101, 109, 111, 32, 100, 114, 105, 118, 101, 114, 32, 101, 110, 116,
   114, 121, 33, 10] ++ List.replicate 95 0

/-- Result of a call to the read handler: the return value, the kernel
buffer after the call, the file position `*offset` after the call, and the
bytes copied out to user space. -/
structure ReadOutcome where
  ret : Int
  buf : List Nat
  offset : Nat
  copied : List Nat
  deriving Repr, DecidableEq

/-- Result of a call to the write handler: the return value, the kernel
buffer after the call, and the file position `*offset` after the call. -/
structure WriteOutcome where
  ret : Int
  buf : List Nat
  offset : Nat
  deriving Repr, DecidableEq

/-- Handler `ldd_read_proc` from src/ldd.c, lines 39-58.  `buf` is `message_buffer`
at entry, `count` the requested byte count, `offset` the value of `*offset`
at entry, `copyOk` whether `copy_to_user` would succeed. -/
def ldd_read_proc (buf : List Nat) (count offset : Nat) (copyOk : Bool) :
    ReadOutcome :=
  let len := strlen buf
  if offset ≥ len ∨ count < len then
    { ret := 0, buf := buf, offset := offset, copied := [] }
  else if copyOk then
    { ret := (len : Int), buf := buf, offset := offset + len,
      copied := buf.take len }
  else
    { ret := -EFAULT, buf := buf, offset := offset, copied := [] }

/-- Handler `ldd_write_proc` from src/ldd.c, lines 77-95.  `u` is user-space memory
(byte `u i` at index `i` of the user buffer), `count` the requested byte
count, `offset` the value of `*offset` at entry (the handler never touches
it), `copyOk` whether `copy_from_user` would succeed. -/
def ldd_write_proc (buf : List Nat) (u : Nat → Nat) (count offset : Nat)
    (copyOk : Bool) : WriteOutcome :=
  let c := if count > MAX_INPUT_SIZE then MAX_INPUT_SIZE else count
  if copyOk then
    { ret := (c : Int),
      buf := (List.range c).map u ++ [0] ++ buf.drop (c + 1),
      offset := offset }
  else
    { ret := -EFAULT, buf := buf, offset := offset }

/-- State of the module lifecycle: the `custom_proc_node` static pointer
(modelled by the name of the node it points to, `none` for NULL) and the set
of procfs nodes currently registered. -/
structure ModuleState where
  custom_proc_node : Option String
  registered : List String
  deriving Repr, DecidableEq

/-- Function `mydrv_init` from src/ldd.c, lines 120-132.  `allocOk` is whether
`proc_create` succeeds; on success the node is registered and the returned
entry pointer stored, on failure NULL is stored and `-ENOMEM` returned. -/
def mydrv_init (s : ModuleState) (allocOk : Bool) : Int × ModuleState :=
  if allocOk then
    (0, { custom_proc_node := some "ldd_demo_driver",
          registered := "ldd_demo_driver" :: s.registered })
  else
    (-ENOMEM, { custom_proc_node := none, registered := s.registered })

/-- Function `mydrv_exit` from src/ldd.c, lines 145-155: if `custom_proc_node` is
non-NULL the node is removed and the pointer reset to NULL; otherwise
nothing happens. -/
def mydrv_exit (s : ModuleState) : ModuleState :=
  match s.custom_proc_node with
  | some n => { custom_proc_node := none, registered := s.registered.erase n }
  | none => s

/-- Buffers reachable from the initial greeting through any sequence of
read and write calls (with any arguments and any copy outcomes). -/
inductive Reachable : List Nat → Prop
  | init : Reachable initial_message_buffer
  | write (b : List Nat) (u : Nat → Nat) (count offset : Nat) (copyOk : Bool) :
      Reachable b → Reachable (ldd_write_proc b u count offset copyOk).buf
  | read (b : List Nat) (count offset : Nat) (copyOk : Bool) :
      Reachable b → Reachable (ldd_read_proc b count offset copyOk).buf

/-! ### Helper lemmas about `strlen` -/

theorem strlen_le_length (l : List Nat) : strlen l ≤ l.length := by
  induction l with
  | nil => simp [strlen]
  | cons b bs ih =>
    simp only [strlen, List.length_cons]
    split <;> omega

theorem strlen_append_zero_le (A B : List Nat) :
    strlen (A ++ 0 :: B) ≤ A.length := by
  induction A with
  | nil => simp [strlen]
  | cons a as ih =>
    simp only [List.cons_append, strlen, List.append_eq, List.length_cons]
    split <;> omega

theorem strlen_append_zero_eq (A B : List Nat) (h : ∀ a ∈ A, a ≠ 0) :
    strlen (A ++ 0 :: B) = A.length := by
  induction A with
  | nil => simp [strlen]
  | cons a as ih =>
    simp only [List.cons_append, strlen, List.append_eq, List.length_cons]
    rw [if_neg (h a (by simp))]
    rw [ih (fun x hx => h x (by simp [hx]))]

theorem getElem?_strlen (l : List Nat) (h : strlen l < l.length) :
    l[strlen l]? = some 0 := by
  induction l with
  | nil => simp at h
  | cons b bs ih =>
    by_cases hb : b = 0
    · simp [strlen, hb]
    · simp only [strlen, if_neg hb] at h ⊢
      simp only [List.length_cons] at h
      simpa using ih (by omega)

theorem trunc_eq_min (count : Nat) :
    (if count > MAX_INPUT_SIZE then MAX_INPUT_SIZE else count)
      = min count MAX_INPUT_SIZE := by
  split <;> omega

/-! ### Helper lemmas about the handlers -/

theorem take_append_length (A B : List Nat) : (A ++ B).take A.length = A := by
  induction A with
  | nil => simp
  | cons a as ih => simp [ih]

theorem get_append_length (A B : List Nat) (b : Nat) :
    (A ++ b :: B)[A.length]? = some b := by
  induction A with
  | nil => simp
  | cons a as ih => simpa using ih

theorem write_buf_eq (buf : List Nat) (u : Nat → Nat) (count offset : Nat) :
    (ldd_write_proc buf u count offset true).buf
      = (List.range (min count MAX_INPUT_SIZE)).map u
        ++ 0 :: buf.drop (min count MAX_INPUT_SIZE + 1) := by
  simp [ldd_write_proc, trunc_eq_min count]

theorem write_buf_fail (buf : List Nat) (u : Nat → Nat) (count offset : Nat) :
    (ldd_write_proc buf u count offset false).buf = buf := by
  simp [ldd_write_proc]

theorem read_buf_eq (buf : List Nat) (count offset : Nat) (ok : Bool) :
    (ldd_read_proc buf count offset ok).buf = buf := by
  simp only [ldd_read_proc]
  split
  · rfl
  · split <;> rfl

/-- C2: `ldd_write_proc` with a successful copy copies exactly
`min count MAX_INPUT_SIZE` bytes from the user buffer into the front of
`message_buffer`, stores a NUL byte at that index, returns that many bytes,
and never stores more than `MAX_INPUT_SIZE` payload bytes. -/
theorem ldd_write_bounded_copy (buf : List Nat) (u : Nat → Nat)
    (count offset : Nat) :
    (ldd_write_proc buf u count offset true).ret
        = ((min count MAX_INPUT_SIZE : Nat) : Int)
    ∧ (ldd_write_proc buf u count offset true).buf.take (min count MAX_INPUT_SIZE)
        = (List.range (min count MAX_INPUT_SIZE)).map u
    ∧ (ldd_write_proc buf u count offset true).buf[min count MAX_INPUT_SIZE]?
        = some 0
    ∧ min count MAX_INPUT_SIZE ≤ MAX_INPUT_SIZE := by
  refine ⟨?_, ?_, ?_, Nat.min_le_right _ _⟩
  · simp [ldd_write_proc, trunc_eq_min count]
  · rw [write_buf_eq]
    have h2 := take_append_length ((List.range (min count MAX_INPUT_SIZE)).map u)
      (0 :: buf.drop (min count MAX_INPUT_SIZE + 1))
    rwa [List.length_map, List.length_range] at h2
  · rw [write_buf_eq]
    have h2 := get_append_length ((List.range (min count MAX_INPUT_SIZE)).map u)
      (buf.drop (min count MAX_INPUT_SIZE + 1)) 0
    rwa [List.length_map, List.length_range] at h2

/-- C3: `ldd_read_proc` copies at most `strlen message_buffer` bytes out to
user space, and every call returning data copies and returns exactly
`len = strlen message_buffer` bytes and advances `*offset` by `len`. -/
theorem ldd_read_bounded_copy (buf : List Nat) (count offset : Nat)
    (ok : Bool) :
    (ldd_read_proc buf count offset ok).copied.length ≤ strlen buf
    ∧ (0 < (ldd_read_proc buf count offset ok).ret →
        (ldd_read_proc buf count offset ok).ret = (strlen buf : Int)
        ∧ (ldd_read_proc buf count offset ok).copied = buf.take (strlen buf)
        ∧ (ldd_read_proc buf count offset ok).copied.length = strlen buf
        ∧ (ldd_read_proc buf count offset ok).offset = offset + strlen buf) := by
  simp only [ldd_read_proc]
  split
  · simp
  · split
    · refine ⟨by simp [strlen_le_length], fun _ => ⟨rfl, rfl, ?_, rfl⟩⟩
      simp [Nat.min_eq_left (strlen_le_length buf)]
    · simp [EFAULT]

/-- C3 witness at a concrete input where data is returned. -/
theorem ldd_read_bounded_copy_witness :
    0 < (ldd_read_proc [104, 105, 0] 5 0 true).ret
    ∧ (ldd_read_proc [104, 105, 0] 5 0 true).ret = (strlen [104, 105, 0] : Int)
    ∧ (ldd_read_proc [104, 105, 0] 5 0 true).offset = 0 + strlen [104, 105, 0] :=
  ⟨by decide,
   ((ldd_read_bounded_copy [104, 105, 0] 5 0 true).2 (by decide)).1,
   ((ldd_read_bounded_copy [104, 105, 0] 5 0 true).2 (by decide)).2.2.2⟩

/-- C8: when `*offset ≥ strlen message_buffer` or `count < strlen
message_buffer`, `ldd_read_proc` returns 0, copies nothing, and leaves
`*offset` unchanged. -/
theorem ldd_read_eof (buf : List Nat) (count offset : Nat) (ok : Bool)
    (h : offset ≥ strlen buf ∨ count < strlen buf) :
    (ldd_read_proc buf count offset ok).ret = 0
    ∧ (ldd_read_proc buf count offset ok).copied = []
    ∧ (ldd_read_proc buf count offset ok).offset = offset := by
  simp [ldd_read_proc, if_pos h]

/-- C8 witness: a read asking for fewer bytes than the message yields 0. -/
theorem ldd_read_eof_witness :
    ((0 : Nat) ≥ strlen [104, 105, 0] ∨ (1 : Nat) < strlen [104, 105, 0])
    ∧ (ldd_read_proc [104, 105, 0] 1 0 true).ret = 0
    ∧ (ldd_read_proc [104, 105, 0] 1 0 true).copied = []
    ∧ (ldd_read_proc [104, 105, 0] 1 0 true).offset = 0 :=
  ⟨by decide, ldd_read_eof [104, 105, 0] 1 0 true (by decide)⟩

/-- C9: `ldd_write_proc` is independent of the `*offset` argument: two calls
differing only in the offset produce the same buffer and return value, and
the offset is never read or advanced. -/
theorem ldd_write_offset_independent (buf : List Nat) (u : Nat → Nat)
    (count o1 o2 : Nat) (ok : Bool) :
    (ldd_write_proc buf u count o1 ok).ret = (ldd_write_proc buf u count o2 ok).ret
    ∧ (ldd_write_proc buf u count o1 ok).buf = (ldd_write_proc buf u count o2 ok).buf
    ∧ (ldd_write_proc buf u count o1 ok).offset = o1 := by
  simp only [ldd_write_proc]
  split <;> exact ⟨rfl, rfl, rfl⟩

/-- C10: `ldd_read_proc` never modifies `message_buffer`. -/
theorem ldd_read_frame (buf : List Nat) (count offset : Nat) (ok : Bool) :
    (ldd_read_proc buf count offset ok).buf = buf :=
  read_buf_eq buf count offset ok

/-- Return value of the read handler as a single conditional. -/
theorem read_ret_eq (buf : List Nat) (count offset : Nat) (ok : Bool) :
    (ldd_read_proc buf count offset ok).ret
      = if offset ≥ strlen buf ∨ count < strlen buf then 0
        else if ok then (strlen buf : Int) else -EFAULT := by
  simp only [ldd_read_proc]
  split
  · rfl
  · split <;> rfl

/-- Return value of the write handler as a single conditional. -/
theorem write_ret_eq (buf : List Nat) (u : Nat → Nat) (count offset : Nat)
    (ok : Bool) :
    (ldd_write_proc buf u count offset ok).ret
      = if ok then ((min count MAX_INPUT_SIZE : Nat) : Int) else -EFAULT := by
  simp only [ldd_write_proc, trunc_eq_min]
  split <;> rfl

/-- C5: `-EFAULT` is returned by the read handler exactly when the copy to
user space is attempted and fails, and by the write handler exactly when the
copy from user space fails; every other return is non-negative, so copy
failures are the only error returns and every error return is negative. -/
theorem ldd_efault_iff_copy_failure (buf : List Nat) (u : Nat → Nat)
    (count offset : Nat) (ok : Bool) :
    ((ldd_read_proc buf count offset ok).ret = -EFAULT
      ↔ (¬(offset ≥ strlen buf ∨ count < strlen buf) ∧ ok = false))
    ∧ ((ldd_write_proc buf u count offset ok).ret = -EFAULT ↔ ok = false)
    ∧ ((ldd_read_proc buf count offset ok).ret < 0
      → (ldd_read_proc buf count offset ok).ret = -EFAULT)
    ∧ ((ldd_write_proc buf u count offset ok).ret < 0
      → (ldd_write_proc buf u count offset ok).ret = -EFAULT) := by
  rw [read_ret_eq, write_ret_eq]
  have hE : EFAULT = 14 := rfl
  refine ⟨?_, ?_, ?_, ?_⟩
  · split
    · rename_i hc
      simp only [hE]
      constructor
      · omega
      · rintro ⟨hnc, -⟩
        exact absurd hc hnc
    · cases ok
      · simp [*]
      · rename_i hc
        simp only [hE, if_true]
        constructor
        · intro h
          omega
        · rintro ⟨-, h⟩
          cases h
  · cases ok
    · simp
    · simp only [if_true, hE]
      constructor
      · intro h
        omega
      · intro h
        cases h
  · split
    · omega
    · cases ok
      · simp
      · simp only [if_true, hE]
        omega
  · cases ok
    · simp
    · simp only [if_true, hE]
      omega

/-- C5 witness: a failed copy on a data-bearing read yields `-EFAULT`, and a
failed copy on a write yields `-EFAULT`. -/
theorem ldd_efault_iff_copy_failure_witness :
    (ldd_read_proc [104, 105, 0] 5 0 false).ret = -EFAULT
    ∧ (ldd_write_proc [104, 105, 0] (fun _ => 65) 3 0 false).ret = -EFAULT :=
  ⟨(ldd_efault_iff_copy_failure [104, 105, 0] (fun _ => 65) 5 0 false).1.mpr
      ⟨by decide, rfl⟩,
   (ldd_efault_iff_copy_failure [104, 105, 0] (fun _ => 65) 3 0 false).2.1.mpr
      rfl⟩

/-- C6: `mydrv_init` returns 0 and registers the node "ldd_demo_driver" when
`proc_create` succeeds; when `proc_create` fails it returns `-ENOMEM` and
registers nothing. -/
theorem ldd_init_register_or_enomem (s : ModuleState) :
    ((mydrv_init s true).1 = 0
      ∧ "ldd_demo_driver" ∈ (mydrv_init s true).2.registered
      ∧ (mydrv_init s true).2.custom_proc_node = some "ldd_demo_driver")
    ∧ ((mydrv_init s false).1 = -ENOMEM
      ∧ (mydrv_init s false).2.registered = s.registered
      ∧ (mydrv_init s false).2.custom_proc_node = none) := by
  simp [mydrv_init]

/-- C7: after a successful `mydrv_init` the node pointer is non-NULL and the
node registered; `mydrv_exit` on a non-NULL pointer removes exactly that node
and resets the pointer to NULL, and does nothing when the pointer is NULL. -/
theorem ldd_lifecycle (s t : ModuleState) (n : String) :
    ((mydrv_init s true).2.custom_proc_node = some "ldd_demo_driver"
      ∧ "ldd_demo_driver" ∈ (mydrv_init s true).2.registered)
    ∧ (t.custom_proc_node = some n →
        (mydrv_exit t).custom_proc_node = none
        ∧ (mydrv_exit t).registered = t.registered.erase n)
    ∧ (t.custom_proc_node = none → mydrv_exit t = t) := by
  refine ⟨by simp [mydrv_init], fun h => ?_, fun h => ?_⟩
  · simp [mydrv_exit, h]
  · simp [mydrv_exit, h]

/-- C7 witness at a loaded-module state. -/
theorem ldd_lifecycle_witness :
    (ModuleState.mk (some "ldd_demo_driver") ["ldd_demo_driver"]).custom_proc_node
        = some "ldd_demo_driver"
    ∧ (mydrv_exit (ModuleState.mk (some "ldd_demo_driver") ["ldd_demo_driver"])).custom_proc_node
        = none
    ∧ (mydrv_exit (ModuleState.mk (some "ldd_demo_driver") ["ldd_demo_driver"])).registered
        = (["ldd_demo_driver"] : List String).erase "ldd_demo_driver" :=
  ⟨rfl,
   (ldd_lifecycle (ModuleState.mk none [])
      (ModuleState.mk (some "ldd_demo_driver") ["ldd_demo_driver"])
      "ldd_demo_driver").2.1 rfl⟩

/-- Length, strlen bound, and terminator position for the initial buffer. -/
theorem initial_buffer_facts :
    initial_message_buffer.length = MAX_INPUT_SIZE + 1
    ∧ strlen initial_message_buffer ≤ MAX_INPUT_SIZE
    ∧ initial_message_buffer[strlen initial_message_buffer]? = some 0 := by
  decide

/-- The outcome of a read that takes the copy branch with a successful copy. -/
theorem read_success (buf : List Nat) (count offset : Nat)
    (h : ¬(offset ≥ strlen buf ∨ count < strlen buf)) :
    ldd_read_proc buf count offset true
      = { ret := (strlen buf : Int), buf := buf, offset := offset + strlen buf,
          copied := buf.take (strlen buf) } := by
  simp only [ldd_read_proc]
  rw [if_neg h]
  exact if_pos trivial

/-- C4: in every state reachable from the initial greeting through read and
write calls, `message_buffer` is a 129-byte array holding a NUL-terminated
string of length at most `MAX_INPUT_SIZE`, the terminator inside the array. -/
theorem ldd_buffer_invariant (buf : List Nat) (h : Reachable buf) :
    buf.length = MAX_INPUT_SIZE + 1 ∧ strlen buf ≤ MAX_INPUT_SIZE
    ∧ buf[strlen buf]? = some 0 := by
  induction h with
  | init => exact initial_buffer_facts
  | write b u count offset ok hb ih =>
    cases ok with
    | false => rw [write_buf_fail]; exact ih
    | true =>
      rw [write_buf_eq]
      obtain ⟨hlen, hstr, hget⟩ := ih
      have hcle : min count MAX_INPUT_SIZE ≤ MAX_INPUT_SIZE :=
        Nat.min_le_right _ _
      have hL : ((List.range (min count MAX_INPUT_SIZE)).map u
          ++ 0 :: b.drop (min count MAX_INPUT_SIZE + 1)).length
          = MAX_INPUT_SIZE + 1 := by
        simp only [List.length_append, List.length_map, List.length_range,
          List.length_cons, List.length_drop, hlen]
        omega
      have hS : strlen ((List.range (min count MAX_INPUT_SIZE)).map u
          ++ 0 :: b.drop (min count MAX_INPUT_SIZE + 1)) ≤ MAX_INPUT_SIZE := by
        have h2 := strlen_append_zero_le
          ((List.range (min count MAX_INPUT_SIZE)).map u)
          (b.drop (min count MAX_INPUT_SIZE + 1))
        rw [List.length_map, List.length_range] at h2
        omega
      exact ⟨hL, hS, getElem?_strlen _ (by rw [hL]; omega)⟩
  | read b count offset ok hb ih => rw [read_buf_eq]; exact ih

/-- C4 witness at the initial buffer. -/
theorem ldd_buffer_invariant_witness :
    initial_message_buffer.length = MAX_INPUT_SIZE + 1
    ∧ strlen initial_message_buffer ≤ MAX_INPUT_SIZE
    ∧ initial_message_buffer[strlen initial_message_buffer]? = some 0 :=
  ldd_buffer_invariant initial_message_buffer Reachable.init

/-- C1 counterexample: writing the single byte 0 succeeds (the write returns
1), yet the immediately following read at offset 0 with count 1 copies
nothing back, because `strlen` stops at the written NUL: the written bytes
are not echoed back verbatim. -/
theorem ldd_roundtrip_counterexample :
    (ldd_write_proc initial_message_buffer (fun _ => 0) 1 0 true).ret = 1
    ∧ (ldd_read_proc (ldd_write_proc initial_message_buffer
        (fun _ => 0) 1 0 true).buf 1 0 true).copied ≠ [0]
    ∧ (ldd_read_proc (ldd_write_proc initial_message_buffer
        (fun _ => 0) 1 0 true).buf 1 0 true).copied = [] := by decide

/-- C1 amended: for every written byte sequence containing no NUL byte, a
successful write of `count` bytes (truncated to `MAX_INPUT_SIZE`) followed by
a read at `*offset = 0` with count at least the written length returns
exactly the written bytes verbatim. -/
theorem ldd_roundtrip_amended (buf : List Nat) (u : Nat → Nat)
    (count offset readCount : Nat)
    (hnz : ∀ i < min count MAX_INPUT_SIZE, u i ≠ 0)
    (hrc : min count MAX_INPUT_SIZE ≤ readCount) :
    (ldd_read_proc (ldd_write_proc buf u count offset true).buf
        readCount 0 true).copied
      = (List.range (min count MAX_INPUT_SIZE)).map u
    ∧ (ldd_read_proc (ldd_write_proc buf u count offset true).buf
        readCount 0 true).ret
      = ((min count MAX_INPUT_SIZE : Nat) : Int) := by
  rw [write_buf_eq]
  have hA : ∀ a ∈ (List.range (min count MAX_INPUT_SIZE)).map u, a ≠ 0 := by
    intro a ha
    obtain ⟨i, hi, rfl⟩ := List.mem_map.mp ha
    exact hnz i (List.mem_range.mp hi)
  have hlen : strlen ((List.range (min count MAX_INPUT_SIZE)).map u
      ++ 0 :: buf.drop (min count MAX_INPUT_SIZE + 1))
      = min count MAX_INPUT_SIZE := by
    rw [strlen_append_zero_eq _ _ hA]
    simp
  by_cases hc0 : min count MAX_INPUT_SIZE = 0
  · constructor <;> simp [ldd_read_proc, hc0, strlen]
  · have hcond : ¬((0 : Nat) ≥ strlen ((List.range (min count MAX_INPUT_SIZE)).map u
        ++ 0 :: buf.drop (min count MAX_INPUT_SIZE + 1))
        ∨ readCount < strlen ((List.range (min count MAX_INPUT_SIZE)).map u
        ++ 0 :: buf.drop (min count MAX_INPUT_SIZE + 1))) := by
      rw [hlen]
      push_neg
      exact ⟨by omega, by omega⟩
    have h2 := take_append_length ((List.range (min count MAX_INPUT_SIZE)).map u)
      (0 :: buf.drop (min count MAX_INPUT_SIZE + 1))
    rw [List.length_map, List.length_range] at h2
    rw [read_success _ _ _ hcond]
    dsimp only
    rw [hlen]
    exact ⟨h2, rfl⟩

/-- C1 witness for the amended round trip at a concrete NUL-free write. -/
theorem ldd_roundtrip_amended_witness :
    (∀ i < min 2 MAX_INPUT_SIZE, (fun j => j + 65) i ≠ 0)
    ∧ min 2 MAX_INPUT_SIZE ≤ 5
    ∧ (ldd_read_proc (ldd_write_proc initial_message_buffer
        (fun j => j + 65) 2 0 true).buf 5 0 true).copied
        = (List.range (min 2 MAX_INPUT_SIZE)).map (fun j => j + 65)
    ∧ (ldd_read_proc (ldd_write_proc initial_message_buffer
        (fun j => j + 65) 2 0 true).buf 5 0 true).ret
        = ((min 2 MAX_INPUT_SIZE : Nat) : Int) :=
  ⟨by decide, by decide,
   (ldd_roundtrip_amended initial_message_buffer (fun j => j + 65) 2 0 5
      (by decide) (by decide)).1,
   (ldd_roundtrip_amended initial_message_buffer (fun j => j + 65) 2 0 5
      (by decide) (by decide)).2⟩
